import Mathlib

/-!
Shallow embedding of the LND-Fuzz orchestration engine:
the failure-detecting output parser (`parser` package), the fuzz
executor and target discoverer (`fuzz` package), and the
scheduler/worker cycle lifecycle (`scheduler` and `worker` packages).

Go strings are modelled as Lean `String`, the filesystem as an
association list from paths to file contents, and fallible Go calls as
`Option`/`Except` values.  External effects whose outcome the program
merely inspects (running a subprocess, reading the clock, a context's
cancellation state) are passed in as explicit oracle arguments.
-/

namespace LndFuzz

/-! ## Go string primitives -/

/-- The whitespace class of Go's `unicode.IsSpace`, used by
`strings.TrimSpace`: ASCII whitespace plus the Unicode `White_Space`
code points. -/
def isUnicodeSpace (c : Char) : Bool :=
  c = '\t' || c = '\n' || c = '\x0b' || c = '\x0c' || c = '\r' ||
  c = ' ' || c = '\u0085' || c = '\u00A0' || c = '\u1680' ||
  ('\u2000' ≤ c && c ≤ '\u200A') || c = '\u2028' || c = '\u2029' ||
  c = '\u202F' || c = '\u205F' || c = '\u3000'

/-- Go `strings.TrimSpace`: strip leading and trailing whitespace. -/
def goTrimSpace (s : String) : String :=
  String.mk
    (((s.toList.dropWhile isUnicodeSpace).reverse.dropWhile
      isUnicodeSpace).reverse)

/-- Substring containment on character lists (an ASCII needle matches
byte-wise in Go exactly when it matches character-wise). -/
def listContains (sub : List Char) : List Char → Bool
  | [] => sub.isEmpty
  | c :: rest => sub.isPrefixOf (c :: rest) || listContains sub rest

/-- Go `strings.Contains`. -/
def strContains (s sub : String) : Bool :=
  listContains sub.toList s.toList

/-! ## Go `path/filepath` (Unix rules) -/

/-- Go `strings.Split` with a one-character separator (structural on
the character list, so that path computations reduce in the kernel). -/
def splitOnChar (sep : Char) : List Char → List (List Char)
  | [] => [[]]
  | c :: rest =>
    match splitOnChar sep rest with
    | [] => [[c]]
    | g :: gs => if c = sep then [] :: g :: gs else (c :: g) :: gs

/-- String-level wrapper of `splitOnChar`. -/
def strSplitOnChar (s : String) (sep : Char) : List String :=
  (splitOnChar sep s.toList).map String.mk

/-- Join path elements with slashes (the `strings.Join`/intercalate
used by `path.Clean` when reassembling the cleaned elements). -/
def joinSlashStr : List String → String
  | [] => ""
  | [x] => x
  | x :: y :: rest => x ++ "/" ++ joinSlashStr (y :: rest)

/-- Go `strings.HasPrefix`. -/
def strHasPrefix (s pre : String) : Bool :=
  pre.toList.isPrefixOf s.toList

/-- One pass of the element stack used by Go's `path.Clean`:
`""` and `"."` elements are dropped, `".."` pops a previous element
(or is kept when there is nothing to pop and the path is relative).
The accumulating `stack` is kept reversed. -/
def cleanStack (rooted : Bool) : List String → List String → List String
  | stack, [] => stack
  | stack, c :: rest =>
    if c = "" ∨ c = "." then cleanStack rooted stack rest
    else if c = ".." then
      match stack with
      | [] => cleanStack rooted (if rooted then [] else [".."]) rest
      | top :: tl =>
        if top = ".." then cleanStack rooted (c :: top :: tl) rest
        else cleanStack rooted tl rest
    else cleanStack rooted (c :: stack) rest

/-- Go `path.Clean` (= `filepath.Clean` on Unix). -/
def goClean (path : String) : String :=
  let rooted := strHasPrefix path "/"
  let stack := (cleanStack rooted [] (strSplitOnChar path '/')).reverse
  let body := joinSlashStr stack
  if rooted then (if body = "" then "/" else "/" ++ body)
  else if body = "" then "." else body

/-- Go `filepath.Join` of two elements: empty elements are skipped and
the slash-joined remainder is cleaned. -/
def goJoin (a b : String) : String :=
  if a = "" then (if b = "" then "" else goClean b)
  else goClean (a ++ "/" ++ b)

/-! ## The failure-line pattern `fuzzFailureRegex`

The Go program compiles

  `(?:failure while testing seed corpus entry:\s*|Failing input written
  to\s*testdata/fuzz/)(?P<target>[^/]+)/(?P<id>[0-9a-f]+)`

and calls `FindStringSubmatch`, which returns the leftmost match with
leftmost-first (backtracking-preference) submatch semantics.  The
matcher below implements exactly this pattern: a scan over start
positions, the two alternatives tried in order, a greedy `\s*` with
backtracking, and greedy one-or-more character classes. -/

/-- The RE2 `\s` class: `[\t\n\f\r ]`. -/
def isSpaceRE (c : Char) : Bool :=
  c = '\t' || c = '\n' || c = '\x0c' || c = '\r' || c = ' '

/-- The RE2 `[0-9a-f]` class. -/
def isHexLower (c : Char) : Bool :=
  ('0' ≤ c && c ≤ '9') || ('a' ≤ c && c ≤ 'f')

/-- Match `(?P<target>[^/]+)/(?P<id>[0-9a-f]+)` at the head of `cs`,
returning the two captures.  `[^/]+` is greedy and can never extend
past a slash, so the slash consumed next is the first one in `cs`; the
final greedy `[0-9a-f]+` takes the maximal hex run. -/
def matchTail (cs : List Char) : Option (List Char × List Char) :=
  let t := cs.takeWhile (fun c => c ≠ '/')
  match cs.dropWhile (fun c => c ≠ '/') with
  | _ :: rest2 =>
    if t.isEmpty then none
    else
      let i := rest2.takeWhile isHexLower
      if i.isEmpty then none else some (t, i)
  | [] => none

/-- Match `\s*` (greedy, with backtracking) followed by `k` at the head
of `cs`: the longest whitespace prefix is preferred, shorter ones are
tried on failure of the continuation. -/
def matchSpacesThen (k : List Char → Option (List Char × List Char)) :
    List Char → Option (List Char × List Char)
  | [] => k []
  | c :: rest =>
    if isSpaceRE c then
      match matchSpacesThen k rest with
      | some r => some r
      | none => k (c :: rest)
    else k (c :: rest)

/-- Match a literal followed by the capture tail. -/
def matchLitThenTail (lit : List Char) (cs : List Char) :
    Option (List Char × List Char) :=
  if lit.isPrefixOf cs then matchTail (cs.drop lit.length) else none

/-- First alternative's literal. -/
def lit1 : List Char := "failure while testing seed corpus entry:".toList

/-- Second alternative's leading literal. -/
def lit2 : List Char := "Failing input written to".toList

/-- Second alternative's trailing literal. -/
def lit3 : List Char := "testdata/fuzz/".toList

/-- Try the whole pattern anchored at `cs`: the first alternative, then
the second. -/
def matchAt (cs : List Char) : Option (List Char × List Char) :=
  match (if lit1.isPrefixOf cs then
      matchSpacesThen matchTail (cs.drop lit1.length)
    else none) with
  | some r => some r
  | none =>
    if lit2.isPrefixOf cs then
      matchSpacesThen (matchLitThenTail lit3) (cs.drop lit2.length)
    else none

/-- Scan start positions left to right, as `FindStringSubmatch` does. -/
def scanMatch : List Char → Option (List Char × List Char)
  | [] => matchAt []
  | c :: rest =>
    match matchAt (c :: rest) with
    | some r => some r
    | none => scanMatch rest

/-- Function `parseFailureLine` from the `parser` package: the `target` and `id`
captures of the leftmost regex match, or two empty strings when the
line does not match.  The third component is the Go error, which is
`nil` on both return paths. -/
def parseFailureLine (line : String) : String × String × Option String :=
  match scanMatch line.toList with
  | none => ("", "", none)
  | some (t, i) => (String.mk t, String.mk i, none)

/-! ## Filesystem model

An association list from paths to file contents.  `os.Create`
creates or truncates a file; writes through an open handle append to
its contents.  The model's only read-failure mode is absence of the
file, whose Go error text is the `ENOENT` `PathError` message. -/

/-- The model filesystem. -/
def Fs : Type := List (String × String)

/-- Look up a file's contents. -/
def fsRead : Fs → String → Option String
  | [], _ => none
  | e :: rest, p => if e.1 = p then some e.2 else fsRead rest p

/-- Replace or insert a file. -/
def fsSet (fs : Fs) (p v : String) : Fs :=
  match fs with
  | [] => [(p, v)]
  | e :: rest => if e.1 = p then (p, v) :: rest else e :: fsSet rest p v

/-- Model of `os.Create`: create or truncate to empty. -/
def fsCreate (fs : Fs) (p : String) : Fs := fsSet fs p ""

/-- A write through an open handle appends to the file's contents. -/
def fsAppend (fs : Fs) (p s : String) : Fs :=
  fsSet fs p (((fsRead fs p).getD "") ++ s)

/-- Go error text for reading an absent file. -/
def readFileErrMsg (path : String) : String :=
  "open " ++ path ++ ": no such file or directory"

/-! ## `FileLogWriter` (the `LogWriter` implementation) -/

/-- A `FileLogWriter` holds the open log file's handle, modelled by its
path; `none` is Go's nil `*os.File` before `Initialize`. -/
structure FileLogWriter where
  file : Option String
deriving DecidableEq, Repr

/-- Model of `fl.file.WriteString s`: a write on the nil handle fails with
`os.ErrInvalid` ("invalid argument"); otherwise the bytes are appended
to the open file. -/
def fileWriteString (fl : FileLogWriter) (fs : Fs) (s : String) :
    Except String Unit × Fs :=
  match fl.file with
  | none => (Except.error "invalid argument", fs)
  | some p => (Except.ok (), fsAppend fs p s)

/-- Method `FileLogWriter.Initialize`: `os.Create` the log file (the model
filesystem cannot fail to create) and store the handle. -/
def FileLogWriter.Initialize (_fl : FileLogWriter) (fs : Fs)
    (logPath : String) : Except String Unit × FileLogWriter × Fs :=
  (Except.ok (), { file := some logPath }, fsCreate fs logPath)

/-- Method `FileLogWriter.WriteLine`: write the line plus a newline. -/
def FileLogWriter.WriteLine (fl : FileLogWriter) (fs : Fs)
    (line : String) : Except String Unit × Fs :=
  match fileWriteString fl fs (line ++ "\n") with
  | (Except.error e, fs') =>
    (Except.error ("Failed to write log file: " ++ e), fs')
  | (Except.ok _, fs') => (Except.ok (), fs')

/-- Method `FileLogWriter.WriteErrorData`: write the data plus a newline. -/
def FileLogWriter.WriteErrorData (fl : FileLogWriter) (fs : Fs)
    (data : String) : Except String Unit × Fs :=
  match fileWriteString fl fs (data ++ "\n") with
  | (Except.error e, fs') =>
    (Except.error ("Failed to write log file: " ++ e), fs')
  | (Except.ok _, fs') => (Except.ok (), fs')

/-- Method `FileLogWriter.Close`: write the trailing error data, then close
the file.  On a nil handle the inner write fails and the close of the
file is never reached. -/
def FileLogWriter.Close (fl : FileLogWriter) (fs : Fs)
    (errorData : String) : Except String Unit × Fs :=
  match fl.WriteErrorData fs errorData with
  | (Except.error e, fs') =>
    (Except.error ("error data write failed: " ++ e), fs')
  | (Except.ok _, fs') => (Except.ok (), fs')

/-! ## `FuzzProcessor` and the per-line state machine -/

/-- Mutable state while processing fuzzer output. -/
structure ProcessState where
  SeenFailure : Bool
  ErrorData : String
  InputPrinted : Bool
deriving DecidableEq, Repr

/-- A `FuzzProcessor`, carrying the configuration fields it reads
(`cfg.FuzzResultsPath`, the corpus path, the target name). -/
structure FuzzProcessor where
  cfgFuzzResultsPath : String
  corpusPath : String
  target : String
  logWriter : FileLogWriter
  State : ProcessState
deriving DecidableEq, Repr

/-- Constructor `NewFuzzProcessor`: zero-valued state, an uninitialized writer. -/
def NewFuzzProcessor (cfgFuzzResultsPath corpusPath target : String) :
    FuzzProcessor :=
  { cfgFuzzResultsPath := cfgFuzzResultsPath
    corpusPath := corpusPath
    target := target
    logWriter := { file := none }
    State := { SeenFailure := false, ErrorData := "", InputPrinted := false } }

/-- Method `readInputData`: read `<corpusPath>/<target>/<id>` and format the
testcase block, or format the read-failure placeholder.  The Go error
returned (third style component) is `nil` on both paths. -/
def readInputData (fp : FuzzProcessor) (target id : String) (fs : Fs) :
    String × Option String :=
  let failingInputPath := goJoin target id
  let inputPath := goJoin fp.corpusPath failingInputPath
  match fsRead fs inputPath with
  | none =>
    ("\n<< failed to read " ++ failingInputPath ++ ": " ++
      readFileErrMsg inputPath ++ " >>\n", none)
  | some data =>
    ("\n\n=== Failing testcase (" ++ failingInputPath ++ ") ===\n" ++
      data, none)

/-- Method `handleFailureDetection`: on the first `"--- FAIL:"` marker, set
`SeenFailure` and initialize the log sink at
`<FuzzResultsPath>/<target>_failure.log`. -/
def handleFailureDetection (fp : FuzzProcessor) (fs : Fs)
    (line : String) : Except String Unit × FuzzProcessor × Fs :=
  if strContains line "--- FAIL:" then
    let fp1 := { fp with State := { fp.State with SeenFailure := true } }
    let logFileName := fp.target ++ "_failure.log"
    let logPath := goJoin fp.cfgFuzzResultsPath logFileName
    match fp1.logWriter.Initialize fs logPath with
    | (Except.error e, fl', fs') =>
      (Except.error ("log writer initialization failed: " ++ e),
        { fp1 with logWriter := fl' }, fs')
    | (Except.ok _, fl', fs') =>
      (Except.ok (), { fp1 with logWriter := fl' }, fs')
  else (Except.ok (), fp, fs)

/-- Method `handleFailureLine`: append the line to the sink; then, unless an
input was already captured, parse the line and on a `(target, id)`
capture read the corpus file and store the result. -/
def handleFailureLine (fp : FuzzProcessor) (fs : Fs) (line : String) :
    Except String Unit × FuzzProcessor × Fs :=
  match fp.logWriter.WriteLine fs line with
  | (Except.error e, fs') =>
    (Except.error ("failed to write log line: " ++ e), fp, fs')
  | (Except.ok _, fs1) =>
    if fp.State.InputPrinted then (Except.ok (), fp, fs1)
    else
      match parseFailureLine line with
      | (_, _, some e) =>
        (Except.error ("failure line parsing failed: " ++ e), fp, fs1)
      | (target, id, none) =>
        if target = "" ∨ id = "" then (Except.ok (), fp, fs1)
        else
          match readInputData fp target id fs1 with
          | (_, some e) =>
            (Except.error ("input data read failed: " ++ e), fp, fs1)
          | (errorData, none) =>
            (Except.ok (),
              { fp with State :=
                { fp.State with ErrorData := errorData,
                                InputPrinted := true } }, fs1)

/-- Method `processLine`: run failure detection while no failure has been
seen (an error there aborts the line), then, if in failure mode —
including on the very line that flipped `SeenFailure` — run
failure-line handling. -/
def processLine (fp : FuzzProcessor) (fs : Fs) (line : String) :
    Except String Unit × FuzzProcessor × Fs :=
  let step1 : Except String Unit × FuzzProcessor × Fs :=
    if fp.State.SeenFailure then (Except.ok (), fp, fs)
    else
      match handleFailureDetection fp fs line with
      | (Except.error e, fp1, fs1) =>
        (Except.error ("failure detection failed: " ++ e), fp1, fs1)
      | (Except.ok _, fp1, fs1) => (Except.ok (), fp1, fs1)
  match step1 with
  | (Except.error e, fp1, fs1) => (Except.error e, fp1, fs1)
  | (Except.ok _, fp1, fs1) =>
    if fp1.State.SeenFailure then
      match handleFailureLine fp1 fs1 line with
      | (Except.error e, fp2, fs2) =>
        (Except.error ("failure line handling failed: " ++ e), fp2, fs2)
      | (Except.ok _, fp2, fs2) => (Except.ok (), fp2, fs2)
    else (Except.ok (), fp1, fs1)

/-- The scanner loop of `ProcessStream`: process each line in turn;
a per-line error is logged (collected here, in order) and processing
continues with the next line. -/
def processLines : FuzzProcessor → Fs → List String →
    FuzzProcessor × Fs × List String
  | fp, fs, [] => (fp, fs, [])
  | fp, fs, line :: rest =>
    match processLine fp fs line with
    | (Except.error e, fp', fs') =>
      let (fpF, fsF, errs) := processLines fp' fs' rest
      (fpF, fsF, ("Error processing line: " ++ e) :: errs)
    | (Except.ok _, fp', fs') => processLines fp' fs' rest

/-- Method `ProcessStream`: the scanner loop, then the single deferred
`Close` with the final `ErrorData`, whose own error is discarded.
Returns the final processor, the filesystem, and the per-line errors
that were logged. -/
def ProcessStream (fp : FuzzProcessor) (fs : Fs) (lines : List String) :
    FuzzProcessor × Fs × List String :=
  let r := processLines fp fs lines
  let c := FileLogWriter.Close r.1.logWriter r.2.1 r.1.State.ErrorData
  (r.1, c.2, r.2.2)

/-! ## Target discovery (`fuzz.listFuzzTargets`)

The listing subprocess is an external effect; its outcome is passed in
as an oracle: `Except.error e` for a non-zero exit of
`go test -list=^Fuzz .` (with `e` the Go error text) and
`Except.ok out` for success with standard output `out`. -/

/-- The collection loop of `listFuzzTargets`: trim each line and keep
those beginning with `"Fuzz"`, in encounter order. -/
def collectTargets : List String → List String
  | [] => []
  | line :: rest =>
    let cleanLine := goTrimSpace line
    if strHasPrefix cleanLine "Fuzz" then cleanLine :: collectTargets rest
    else collectTargets rest

/-- Function `listFuzzTargets`: on a failed listing command, return the wrapped
error; on success, split stdout into lines and collect the targets.
The returned `Bool` records whether the "No valid fuzz targets found"
warning was logged (the warning is not an error). -/
def listFuzzTargets (pkg : String) (runResult : Except String String)
    (stderrOut : String) : Except String (List String × Bool) :=
  match runResult with
  | Except.error err =>
    Except.error ("go test failed for \"" ++ pkg ++ "\": " ++ err ++
      " (output: \"" ++ goTrimSpace stderrOut ++ "\")")
  | Except.ok stdoutStr =>
    let targets := collectTargets (strSplitOnChar stdoutStr '\n')
    Except.ok (targets, targets.isEmpty)

/-! ## Target execution (`fuzz.executeFuzzTarget`)

Each fallible external step is an oracle field: `none` means the Go
call returned a nil error.  `ctxErrAtWait` is `ctx.Err()` at the
moment `cmd.Wait` returns, after both output readers have joined. -/

/-- Oracle outcomes for one run of `executeFuzzTarget`. -/
structure ExecEnv where
  cwdErr : Option String
  stdoutPipeErr : Option String
  stderrPipeErr : Option String
  startErr : Option String
  waitErr : Option String
  ctxErrAtWait : Option String
deriving DecidableEq, Repr

/-- Function `executeFuzzTarget`, returning its Go error (`none` = nil).  A
non-nil `cmd.Wait` error is surfaced only when the context was not yet
canceled (`ctx.Err() == nil`); a cancellation-induced exit is
suppressed. -/
def executeFuzzTarget (env : ExecEnv) : Option String :=
  match env.cwdErr with
  | some e => some ("failed to get working directory: " ++ e)
  | none =>
    match env.stdoutPipeErr with
    | some e => some ("stdout pipe failed: " ++ e)
    | none =>
      match env.stderrPipeErr with
      | some e => some ("stderr pipe failed: " ++ e)
      | none =>
        match env.startErr with
        | some e => some ("command start failed: " ++ e)
        | none =>
          match env.waitErr with
          | some e =>
            if env.ctxErrAtWait = none then
              some ("fuzz execution failed: " ++ e)
            else none
          | none => none

/-! ## Scheduler / worker cycle lifecycle

`worker.Main` registers `defer close(doneChan)` and on a cloning or
fuzzing error logs it, runs `config.PerformCleanup`, and calls
`os.Exit(1)` — which terminates the process *without running deferred
calls*.  `scheduler.runFuzzingWorker` first checks the cycle context
and, when it is already canceled, returns without ever closing
`doneChan`.  The scheduler's own loop, in both of its select branches,
cancels the cycle, blocks on `<-doneChan`, and only then runs
`config.CleanupWorkspace`. -/

/-- Observable outcome of one worker goroutine execution. -/
structure WorkerRun where
  /-- whether `close(doneChan)` executed before the goroutine ended -/
  doneClosed : Bool
  /-- Holds `some code` when `os.Exit code` terminated the whole process -/
  osExited : Option Nat
  /-- whether the worker's own `config.PerformCleanup` ran -/
  cleanupRan : Bool
  /-- messages passed to `logger.Error` -/
  loggedErrors : List String
deriving DecidableEq, Repr

/-- Function `worker.Main` with the outcomes of `git.CloneRepositories` and
`fuzz.RunFuzzing` supplied as oracles.  The deferred
`close(doneChan)` runs only on normal return; `os.Exit` skips it. -/
def workerMain (cloneErr fuzzErr : Option String) : WorkerRun :=
  match cloneErr with
  | some e =>
    { doneClosed := false, osExited := some 1, cleanupRan := true,
      loggedErrors := ["Repository cloning failed: " ++ e] }
  | none =>
    match fuzzErr with
    | some e =>
      { doneClosed := false, osExited := some 1, cleanupRan := true,
        loggedErrors := ["Fuzzing process failed: " ++ e] }
    | none =>
      { doneClosed := true, osExited := none, cleanupRan := false,
        loggedErrors := [] }

/-- Function `scheduler.runFuzzingWorker`: when the cycle context is already
canceled at its select, it logs and returns — without touching
`doneChan`; otherwise it runs `worker.Main`. -/
def runFuzzingWorker (ctxDoneAtEntry : Bool)
    (cloneErr fuzzErr : Option String) : WorkerRun :=
  if ctxDoneAtEntry then
    { doneClosed := false, osExited := none, cleanupRan := false,
      loggedErrors := [] }
  else workerMain cloneErr fuzzErr

/-- What one scheduler iteration does after its select branch fires. -/
inductive CycleOutcome where
  /-- cleanup ran; the loop continues with the next cycle -/
  | nextCycle
  /-- cleanup ran; the root context was canceled, so the loop returns -/
  | shutdown
  /-- the worker called `os.Exit`, terminating the whole process -/
  | processExited (code : Nat)
  /-- Case where `doneChan` was never closed: `<-doneChan` blocks forever -/
  | blockedOnDone
deriving DecidableEq, Repr

/-- Result of one `RunFuzzingCycles` iteration. -/
structure CycleResult where
  worker : WorkerRun
  /-- whether the scheduler's `config.CleanupWorkspace` ran -/
  schedulerCleanupRan : Bool
  outcome : CycleOutcome
deriving DecidableEq, Repr

/-- One iteration of `scheduler.RunFuzzingCycles` from the point where
either select branch fires (cycle duration elapsed, or root context
canceled): cancel the cycle, block on `<-doneChan`, run
`config.CleanupWorkspace`, then loop or return.  `rootCanceled` tells
which branch fired; `ctxDoneAtWorkerEntry` is whether the worker
goroutine observed the (already canceled) cycle context at its own
select before starting `worker.Main`. -/
def schedulerCycleStep (rootCanceled ctxDoneAtWorkerEntry : Bool)
    (cloneErr fuzzErr : Option String) : CycleResult :=
  let w := runFuzzingWorker ctxDoneAtWorkerEntry cloneErr fuzzErr
  match w.osExited with
  | some code =>
    { worker := w, schedulerCleanupRan := false,
      outcome := CycleOutcome.processExited code }
  | none =>
    if w.doneClosed then
      { worker := w, schedulerCleanupRan := true,
        outcome := if rootCanceled then CycleOutcome.shutdown
          else CycleOutcome.nextCycle }
    else
      { worker := w, schedulerCleanupRan := false,
        outcome := CycleOutcome.blockedOnDone }

/-! ## Concrete scenario inputs (spec §8) -/

/-- A processor for target FuzzFoo with results directory "results"
and corpus root "corpus". -/
def fpScenario : FuzzProcessor := NewFuzzProcessor "results" "corpus" "FuzzFoo"

/-- A filesystem holding the corpus file FuzzFoo/abc123 = "SEED". -/
def fsScenario : Fs := [("corpus/FuzzFoo/abc123", "SEED")]

/-- The Scenario A line sequence. -/
def scenarioALines : List String :=
  ["ok", "--- FAIL: FuzzFoo", "panic: x",
   "Failing input written to testdata/fuzz/FuzzFoo/abc123", "more"]

/-- A processor already in failure mode whose input was captured. -/
def fpSecondMarker : FuzzProcessor :=
  { cfgFuzzResultsPath := "results", corpusPath := "corpus",
    target := "FuzzFoo",
    logWriter := { file := some "results/FuzzFoo_failure.log" },
    State := { SeenFailure := true, ErrorData := "E",
               InputPrinted := true } }

/-- A filesystem whose log file already holds recorded lines. -/
def fsSecondMarker : Fs := [("results/FuzzFoo_failure.log", "old\n")]

/-- A processor in failure mode with no capture yet. -/
def fpCapture : FuzzProcessor :=
  { cfgFuzzResultsPath := "results", corpusPath := "corpus",
    target := "FuzzFoo",
    logWriter := { file := some "results/FuzzFoo_failure.log" },
    State := { SeenFailure := true, ErrorData := "",
               InputPrinted := false } }

/-- A filesystem with an open log file and the corpus entry. -/
def fsCapture : Fs :=
  [("results/FuzzFoo_failure.log", ""), ("corpus/FuzzFoo/abc123", "SEED")]

/-- A filesystem with an open log file but no corpus entry. -/
def fsNoCorpus : Fs := [("results/FuzzFoo_failure.log", "")]

/-- An execution whose fuzz process died because its context was
canceled: `cmd.Wait` errored while `ctx.Err()` was already non-nil. -/
def envCanceled : ExecEnv :=
  { cwdErr := none, stdoutPipeErr := none, stderrPipeErr := none,
    startErr := none, waitErr := some "signal: killed",
    ctxErrAtWait := some "context canceled" }

/-- An execution whose fuzz process crashed on its own: `cmd.Wait`
errored while the context was still live. -/
def envCrash : ExecEnv :=
  { cwdErr := none, stdoutPipeErr := none, stderrPipeErr := none,
    startErr := none, waitErr := some "exit status 1",
    ctxErrAtWait := none }

/-! ## Helper lemmas -/

/-- Reading after an update: the updated key returns the new value,
any other key is unaffected. -/
theorem fsRead_fsSet (fs : Fs) (p v q : String) :
    fsRead (fsSet fs p v) q = if q = p then some v else fsRead fs q := by
  induction fs with
  | nil =>
    by_cases h : q = p
    · subst h; simp [fsSet, fsRead]
    · simp [fsSet, fsRead, h, Ne.symm h]
  | cons e rest ih =>
    by_cases h : e.1 = p
    · by_cases h2 : q = p
      · subst h2; simp [fsSet, fsRead, h]
      · have hne : ¬ e.1 = q := fun hh => h2 (hh.symm.trans h)
        simp [fsSet, fsRead, h, h2, Ne.symm h2, hne]
    · by_cases h2 : e.1 = q
      · have hqp : ¬ q = p := fun hh => h (h2.trans hh)
        simp [fsSet, fsRead, h, h2, hqp]
      · simp [fsSet, fsRead, h, h2, ih]

/-- Appending to a file changes only that file, by appending. -/
theorem fsRead_fsAppend (fs : Fs) (p s q : String) :
    fsRead (fsAppend fs p s) q =
      if q = p then some (((fsRead fs p).getD "") ++ s)
      else fsRead fs q := by
  simp [fsAppend, fsRead_fsSet]

/-- Lists: toList of a string concatenation. -/
theorem string_toList_append (s t : String) :
    (s ++ t).toList = s.toList ++ t.toList := by
  simp [String.toList, String.data_append]

/-- Rebuilding a string from its character list. -/
theorem string_mk_toList (s : String) : String.mk s.toList = s := rfl

/-- A string has an empty character list exactly when it is empty. -/
theorem string_toList_eq_nil (s : String) : s.toList = [] ↔ s = "" := by
  cases s; simp [String.toList, String.ext_iff]

/-- takeWhile over an append whose left part satisfies the predicate. -/
theorem takeWhile_append_all {α : Type} (p : α → Bool) (l r : List α)
    (h : ∀ a ∈ l, p a = true) :
    (l ++ r).takeWhile p = l ++ r.takeWhile p := by
  induction l with
  | nil => simp
  | cons a as ih =>
    simp only [List.cons_append, List.takeWhile_cons]
    rw [h a (by simp)]
    simp [ih (fun a ha => h a (by simp [ha]))]

/-- dropWhile over an append whose left part satisfies the predicate. -/
theorem dropWhile_append_all {α : Type} (p : α → Bool) (l r : List α)
    (h : ∀ a ∈ l, p a = true) :
    (l ++ r).dropWhile p = r.dropWhile p := by
  induction l with
  | nil => simp
  | cons a as ih =>
    simp only [List.cons_append, List.dropWhile_cons]
    rw [h a (by simp)]
    simp [ih (fun a ha => h a (by simp [ha]))]

/-- takeWhile of a list all of whose elements satisfy the predicate. -/
theorem takeWhile_all {α : Type} (p : α → Bool) (l : List α)
    (h : ∀ a ∈ l, p a = true) : l.takeWhile p = l := by
  induction l with
  | nil => simp
  | cons a as ih =>
    simp only [List.takeWhile_cons]
    rw [h a (by simp)]
    simp [ih (fun a ha => h a (by simp [ha]))]

/-- The capture tail succeeds on a canonical target/slash/id layout. -/
theorem matchTail_canonical (t i : List Char)
    (ht : ∀ c ∈ t, ¬(c = '/')) (htne : t ≠ [])
    (hid : ∀ c ∈ i, isHexLower c = true) (hidne : i ≠ []) :
    matchTail (t ++ '/' :: i) = some (t, i) := by
  have hp : ∀ c ∈ t, (fun c => decide (c ≠ '/')) c = true := by
    intro c hc; simpa using ht c hc
  have h1 : List.takeWhile (fun c => decide (c ≠ '/')) (t ++ '/' :: i) = t := by
    rw [takeWhile_append_all _ t _ hp]
    simp [List.takeWhile_cons]
  have h2 : List.dropWhile (fun c => decide (c ≠ '/')) (t ++ '/' :: i) =
      '/' :: i := by
    rw [dropWhile_append_all _ t _ hp]
    simp [List.dropWhile_cons]
  simp only [matchTail, h1, h2]
  simp [List.isEmpty_iff, htne, takeWhile_all isHexLower i hid, hidne]

/-- A match anchored at the very first position is the scan's result. -/
theorem scanMatch_of_matchAt (cs : List Char)
    (r : List Char × List Char) (h : matchAt cs = some r) :
    scanMatch cs = some r := by
  cases cs with
  | nil => simp [scanMatch, h]
  | cons c rest => simp [scanMatch, h]

/-- One step of the spaces matcher on a whitespace head. -/
theorem matchSpacesThen_cons_space
    (k : List Char → Option (List Char × List Char)) (c : Char)
    (cs : List Char) (h : isSpaceRE c = true) :
    matchSpacesThen k (c :: cs) =
      match matchSpacesThen k cs with
      | some r => some r
      | none => k (c :: cs) := by
  simp [matchSpacesThen, h]

/-- One step of the spaces matcher on a non-whitespace head. -/
theorem matchSpacesThen_cons_nospace
    (k : List Char → Option (List Char × List Char)) (c : Char)
    (cs : List Char) (h : isSpaceRE c = false) :
    matchSpacesThen k (c :: cs) = k (c :: cs) := by
  simp [matchSpacesThen, h]

/-- Form 2 parses to its target and id: a line
"Failing input written to testdata/fuzz/(target)/(id)" with a
slash-free nonempty target and a nonempty lowercase-hex id. -/
theorem parseFailureLine_form2 (target id : String)
    (ht : ∀ c ∈ target.toList, ¬(c = '/')) (htne : target ≠ "")
    (hid : ∀ c ∈ id.toList, isHexLower c = true) (hidne : id ≠ "") :
    parseFailureLine
      ("Failing input written to testdata/fuzz/" ++ target ++ "/" ++ id) =
      (target, id, none) := by
  have hlist :
      ("Failing input written to testdata/fuzz/" ++ target ++ "/" ++
        id).toList =
      lit2 ++ ' ' :: (lit3 ++ (target.toList ++ '/' :: id.toList)) := by
    simp only [string_toList_append]
    rw [show ("Failing input written to testdata/fuzz/".toList) =
      lit2 ++ ' ' :: lit3 from rfl]
    simp [List.append_assoc]
  have htailm : matchTail (target.toList ++ '/' :: id.toList) =
      some (target.toList, id.toList) :=
    matchTail_canonical _ _ ht
      (by intro hh; exact htne ((string_toList_eq_nil target).mp hh)) hid
      (by intro hh; exact hidne ((string_toList_eq_nil id).mp hh))
  have hkval : matchLitThenTail lit3
      (lit3 ++ (target.toList ++ '/' :: id.toList)) =
      some (target.toList, id.toList) := by
    simp only [matchLitThenTail]
    rw [show (lit3.isPrefixOf
      (lit3 ++ (target.toList ++ '/' :: id.toList))) = true from
        by simp [List.isPrefixOf_iff_prefix]]
    simp only [if_true, List.drop_left]
    exact htailm
  have hk : matchSpacesThen (matchLitThenTail lit3)
      (lit3 ++ (target.toList ++ '/' :: id.toList)) =
      some (target.toList, id.toList) := by
    have hcons : lit3 ++ (target.toList ++ '/' :: id.toList) =
        't' :: ("estdata/fuzz/".toList ++
          (target.toList ++ '/' :: id.toList)) := rfl
    rw [hcons, matchSpacesThen_cons_nospace _ _ _ (by rfl), ← hcons]
    exact hkval
  have hsp : matchSpacesThen (matchLitThenTail lit3)
      (' ' :: (lit3 ++ (target.toList ++ '/' :: id.toList))) =
      some (target.toList, id.toList) := by
    rw [matchSpacesThen_cons_space _ _ _ (by rfl), hk]
  have hmatch : matchAt
      (lit2 ++ ' ' :: (lit3 ++ (target.toList ++ '/' :: id.toList))) =
      some (target.toList, id.toList) := by
    have hnp : lit1.isPrefixOf
        (lit2 ++ ' ' :: (lit3 ++ (target.toList ++ '/' :: id.toList))) =
        false := by
      rw [show lit2 ++ ' ' :: (lit3 ++ (target.toList ++ '/' ::
        id.toList)) = 'F' :: ("ailing input written to".toList ++
          ' ' :: (lit3 ++ (target.toList ++ '/' :: id.toList)))
        from rfl]
      simp [lit1, List.isPrefixOf]
    have hpre : lit2.isPrefixOf
        (lit2 ++ ' ' :: (lit3 ++ (target.toList ++ '/' :: id.toList))) =
        true := by
      simp [List.isPrefixOf_iff_prefix]
    simp only [matchAt, hnp, Bool.false_eq_true, if_false, hpre,
      if_true, List.drop_left]
    rw [hsp]
  simp only [parseFailureLine, hlist,
    scanMatch_of_matchAt _ _ hmatch, string_mk_toList]

/-- Form 1 parses to its target and id: a line
"failure while testing seed corpus entry: (target)/(id)" with a
slash-free, whitespace-free, nonempty target and a nonempty
lowercase-hex id. -/
theorem parseFailureLine_form1 (target id : String)
    (ht : ∀ c ∈ target.toList, ¬(c = '/')) (htne : target ≠ "")
    (hts : ∀ c ∈ target.toList, isSpaceRE c = false)
    (hid : ∀ c ∈ id.toList, isHexLower c = true) (hidne : id ≠ "") :
    parseFailureLine
      ("failure while testing seed corpus entry: " ++ target ++ "/" ++
        id) = (target, id, none) := by
  have hlist :
      ("failure while testing seed corpus entry: " ++ target ++ "/" ++
        id).toList =
      lit1 ++ ' ' :: (target.toList ++ '/' :: id.toList) := by
    simp only [string_toList_append]
    rw [show ("failure while testing seed corpus entry: ".toList) =
      lit1 ++ [' '] from rfl]
    simp [List.append_assoc]
  have htailm : matchTail (target.toList ++ '/' :: id.toList) =
      some (target.toList, id.toList) :=
    matchTail_canonical _ _ ht
      (by intro hh; exact htne ((string_toList_eq_nil target).mp hh)) hid
      (by intro hh; exact hidne ((string_toList_eq_nil id).mp hh))
  have htlne : target.toList ≠ [] := by
    intro hh; exact htne ((string_toList_eq_nil target).mp hh)
  have hsp : matchSpacesThen matchTail
      (' ' :: (target.toList ++ '/' :: id.toList)) =
      some (target.toList, id.toList) := by
    rw [matchSpacesThen_cons_space _ _ _ (by rfl)]
    cases hcase : target.toList with
    | nil => exact absurd hcase htlne
    | cons c0 cs0 =>
      have hns : isSpaceRE c0 = false := hts c0 (by rw [hcase]; simp)
      have hscrut : matchSpacesThen matchTail
          ((c0 :: cs0) ++ '/' :: id.toList) =
          some (c0 :: cs0, id.toList) := by
        rw [List.cons_append, matchSpacesThen_cons_nospace _ _ _ hns,
          ← List.cons_append, ← hcase]
        exact htailm
      rw [hscrut]
  have hmatch : matchAt
      (lit1 ++ ' ' :: (target.toList ++ '/' :: id.toList)) =
      some (target.toList, id.toList) := by
    have hpre : lit1.isPrefixOf
        (lit1 ++ ' ' :: (target.toList ++ '/' :: id.toList)) = true := by
      simp [List.isPrefixOf_iff_prefix]
    simp only [matchAt, hpre, if_true, List.drop_left]
    rw [hsp]
  simp only [parseFailureLine, hlist,
    scanMatch_of_matchAt _ _ hmatch, string_mk_toList]

/-- Both return paths of readInputData carry a nil Go error. -/
theorem readInputData_eq (fp : FuzzProcessor) (t i : String) (fs : Fs) :
    readInputData fp t i fs = ((readInputData fp t i fs).1, none) := by
  simp only [readInputData]
  cases fsRead fs (goJoin fp.corpusPath (goJoin t i)) <;> rfl

/-- On an open sink, writing a line succeeds and appends it. -/
theorem writeLine_open (fp : FuzzProcessor) (fs : Fs) (line p : String)
    (hfile : fp.logWriter.file = some p) :
    fp.logWriter.WriteLine fs line =
      (Except.ok (), fsAppend fs p (line ++ "\n")) := by
  simp [FileLogWriter.WriteLine, fileWriteString, hfile]

/-- The capture step: with an open sink, no prior capture, and a line
parsing to nonempty captures, handleFailureLine appends the line to
the sink, stores the formatted read result, and marks the input
printed. -/
theorem handleFailureLine_capture (fp : FuzzProcessor) (fs : Fs)
    (line p target id : String)
    (hfile : fp.logWriter.file = some p)
    (hip : fp.State.InputPrinted = false)
    (hparse : parseFailureLine line = (target, id, none))
    (htne : target ≠ "") (hidne : id ≠ "") :
    handleFailureLine fp fs line =
      (Except.ok (),
        { fp with State :=
          { fp.State with
            ErrorData :=
              (readInputData fp target id
                (fsAppend fs p (line ++ "\n"))).1,
            InputPrinted := true } },
        fsAppend fs p (line ++ "\n")) := by
  simp only [handleFailureLine, writeLine_open fp fs line p hfile, hip,
    Bool.false_eq_true, if_false, hparse, htne, hidne, or_self,
    or_false, false_or]
  cases hread : fsRead (fsAppend fs p (line ++ "\n"))
      (goJoin fp.corpusPath (goJoin target id)) with
  | none => simp [readInputData, hread]
  | some d => simp [readInputData, hread]

/-- Once the input is printed, handleFailureLine leaves the processor
unchanged (it only appends the line to the sink, if it can). -/
theorem handleFailureLine_printed (fp : FuzzProcessor) (fs : Fs)
    (line : String) (hip : fp.State.InputPrinted = true) :
    (handleFailureLine fp fs line).2.1 = fp := by
  rcases h : fp.logWriter.WriteLine fs line with ⟨e, fs1⟩
  cases e <;> simp [handleFailureLine, h, hip]

/-- A string is unchanged by appending the empty string. -/
theorem string_append_empty (s : String) : s ++ "" = s := by
  apply String.ext; simp [String.data_append]

/-- The empty string is a left identity for append. -/
theorem string_empty_append (s : String) : "" ++ s = s := by
  apply String.ext; simp [String.data_append]

/-- Appending to a file only ever extends existing contents. -/
theorem fsRead_fsAppend_mono (fs : Fs) (p s q old : String)
    (h : fsRead fs q = some old) :
    ∃ t, fsRead (fsAppend fs p s) q = some (old ++ t) := by
  by_cases hq : q = p
  · subst hq
    exact ⟨s, by simp [fsRead_fsAppend, h]⟩
  · exact ⟨"", by simp [fsRead_fsAppend, hq, h, string_append_empty]⟩

/-- Case shape of handleFailureDetection: no marker leaves everything
unchanged; a marker (only reachable while not yet in failure mode)
flips SeenFailure and opens a fresh sink at the derived path. -/
theorem handleFailureDetection_shape (fp : FuzzProcessor) (fs : Fs)
    (line : String) :
    (strContains line "--- FAIL:" = false ∧
      handleFailureDetection fp fs line = (Except.ok (), fp, fs)) ∨
    (strContains line "--- FAIL:" = true ∧
      handleFailureDetection fp fs line =
        (Except.ok (),
          { fp with
            State := { fp.State with SeenFailure := true },
            logWriter := { file := some (goJoin fp.cfgFuzzResultsPath
              (fp.target ++ "_failure.log")) } },
          fsCreate fs (goJoin fp.cfgFuzzResultsPath
            (fp.target ++ "_failure.log")))) := by
  by_cases h : strContains line "--- FAIL:" = true
  · exact Or.inr ⟨h, by simp [handleFailureDetection, h,
      FileLogWriter.Initialize]⟩
  · exact Or.inl ⟨by simpa using h, by
      simp [handleFailureDetection, h]⟩

/-- Case shape of handleFailureLine: the processor either stays intact
or gains exactly one capture (ErrorData set, InputPrinted flipped from
false to true); the filesystem either stays intact or gains one
appended line on the open sink. -/
theorem handleFailureLine_shape (fp : FuzzProcessor) (fs : Fs)
    (line : String) :
    ((handleFailureLine fp fs line).2.1 = fp ∨
      (fp.State.InputPrinted = false ∧ ∃ ed,
        (handleFailureLine fp fs line).2.1 =
          { fp with State :=
            { fp.State with
              ErrorData := ed,
              InputPrinted := true } })) ∧
    ((handleFailureLine fp fs line).2.2 = fs ∨
      ∃ p, fp.logWriter.file = some p ∧
        (handleFailureLine fp fs line).2.2 =
          fsAppend fs p (line ++ "\n")) := by
  cases hfile : fp.logWriter.file with
  | none =>
    have hw : fp.logWriter.WriteLine fs line =
        (Except.error ("Failed to write log file: " ++
          "invalid argument"), fs) := by
      simp [FileLogWriter.WriteLine, fileWriteString, hfile]
    constructor
    · exact Or.inl (by simp [handleFailureLine, hw])
    · exact Or.inl (by simp [handleFailureLine, hw])
  | some p =>
    have hw := writeLine_open fp fs line p hfile
    cases hip : fp.State.InputPrinted with
    | true =>
      constructor
      · exact Or.inl (handleFailureLine_printed fp fs line hip)
      · exact Or.inr ⟨p, rfl, by simp [handleFailureLine, hw, hip]⟩
    | false =>
      rcases hpl : parseFailureLine line with ⟨t, i, e⟩
      cases e with
      | some e =>
        constructor
        · exact Or.inl (by simp [handleFailureLine, hw, hip, hpl])
        · exact Or.inr ⟨p, rfl, by simp [handleFailureLine, hw, hip, hpl]⟩
      | none =>
        by_cases hti : t = "" ∨ i = ""
        · constructor
          · exact Or.inl (by simp [handleFailureLine, hw, hip, hpl, hti])
          · exact Or.inr ⟨p, rfl,
              by simp [handleFailureLine, hw, hip, hpl, hti]⟩
        · push_neg at hti
          have hc := handleFailureLine_capture fp fs line p t i hfile hip
            hpl hti.1 hti.2
          constructor
          · exact Or.inr ⟨rfl, ⟨_, by rw [hc]⟩⟩
          · exact Or.inr ⟨p, rfl, by rw [hc]⟩

/-- While in failure mode, processLine defers entirely to
handleFailureLine (the wrapper only decorates the error text). -/
theorem processLine_seen_snd (fp : FuzzProcessor) (fs : Fs)
    (line : String) (hsf : fp.State.SeenFailure = true) :
    (processLine fp fs line).2 = (handleFailureLine fp fs line).2 := by
  simp only [processLine, hsf, if_true]
  rcases h : handleFailureLine fp fs line with ⟨e, a, b⟩
  cases e <;> simp [h]

/-- Outside failure mode, a marker-free line changes nothing. -/
theorem processLine_nomarker (fp : FuzzProcessor) (fs : Fs)
    (line : String) (hsf : fp.State.SeenFailure = false)
    (hm : strContains line "--- FAIL:" = false) :
    processLine fp fs line = (Except.ok (), fp, fs) := by
  simp [processLine, hsf, handleFailureDetection, hm]

/-- On the marker line itself, processLine flips SeenFailure, opens
the sink, and then hands that same line to handleFailureLine. -/
theorem processLine_marker_snd (fp : FuzzProcessor) (fs : Fs)
    (line : String) (hsf : fp.State.SeenFailure = false)
    (hm : strContains line "--- FAIL:" = true) :
    (processLine fp fs line).2 =
      (handleFailureLine
        { fp with
          State := { fp.State with SeenFailure := true },
          logWriter := { file := some (goJoin fp.cfgFuzzResultsPath
            (fp.target ++ "_failure.log")) } }
        (fsCreate fs (goJoin fp.cfgFuzzResultsPath
          (fp.target ++ "_failure.log"))) line).2 := by
  rcases handleFailureDetection_shape fp fs line with ⟨hm2, _⟩ | ⟨_, hdet⟩
  · rw [hm] at hm2; exact absurd hm2 (by simp)
  · simp only [processLine, hsf, Bool.false_eq_true, if_false, hdet]
    rcases h : handleFailureLine
      { fp with
        State := { fp.State with SeenFailure := true },
        logWriter := { file := some (goJoin fp.cfgFuzzResultsPath
          (fp.target ++ "_failure.log")) } }
      (fsCreate fs (goJoin fp.cfgFuzzResultsPath
        (fp.target ++ "_failure.log"))) line with ⟨e, a, b⟩
    cases e <;> simp [h]

/-- C3: every per-line step preserves the ProcessState invariants:
SeenFailure and InputPrinted only transition false-to-true and never
revert; ErrorData changes only through the capture step (which
requires InputPrinted = false and sets it); and once in failure mode
the sink is never reinitialized and existing file contents are only
ever extended, never truncated — in particular by a second marker
line. -/
theorem C3_processState_invariants (fp : FuzzProcessor) (fs : Fs)
    (line : String) :
    (fp.State.SeenFailure = true →
      (processLine fp fs line).2.1.State.SeenFailure = true) ∧
    (fp.State.InputPrinted = true →
      (processLine fp fs line).2.1.State.InputPrinted = true ∧
      (processLine fp fs line).2.1.State.ErrorData =
        fp.State.ErrorData) ∧
    ((processLine fp fs line).2.1.State.ErrorData ≠
        fp.State.ErrorData →
      fp.State.InputPrinted = false ∧
      (processLine fp fs line).2.1.State.InputPrinted = true) ∧
    (fp.State.SeenFailure = true →
      (processLine fp fs line).2.1.logWriter = fp.logWriter ∧
      ∀ q s, fsRead fs q = some s →
        ∃ t, fsRead (processLine fp fs line).2.2 q = some (s ++ t)) := by
  by_cases hsf : fp.State.SeenFailure = true
  · have hsnd := processLine_seen_snd fp fs line hsf
    have hfst : (processLine fp fs line).2.1 =
        (handleFailureLine fp fs line).2.1 := congrArg Prod.fst hsnd
    have hfs : (processLine fp fs line).2.2 =
        (handleFailureLine fp fs line).2.2 := congrArg Prod.snd hsnd
    obtain ⟨hshape1, hshape2⟩ := handleFailureLine_shape fp fs line
    refine ⟨?_, ?_, ?_, ?_⟩
    · intro _
      rw [hfst]
      rcases hshape1 with h | ⟨_, ed, h⟩ <;> rw [h]
      · exact hsf
      · exact hsf
    · intro hip
      rw [hfst]
      rcases hshape1 with h | ⟨hip2, ed, h⟩
      · rw [h]; exact ⟨hip, rfl⟩
      · rw [hip] at hip2; exact absurd hip2 (by simp)
    · intro hed
      rw [hfst] at hed ⊢
      rcases hshape1 with h | ⟨hip2, ed, h⟩
      · rw [h] at hed; exact absurd rfl hed
      · rw [h]; exact ⟨hip2, rfl⟩
    · intro _
      constructor
      · rw [hfst]
        rcases hshape1 with h | ⟨_, ed, h⟩ <;> rw [h]
      · intro q s hq
        rw [hfs]
        rcases hshape2 with h | ⟨p, _, h⟩
        · rw [h]; exact ⟨"", by rw [hq, string_append_empty]⟩
        · rw [h]; exact fsRead_fsAppend_mono fs p _ q s hq
  · have hsf' : fp.State.SeenFailure = false := by simpa using hsf
    by_cases hm : strContains line "--- FAIL:" = true
    · have hsnd := processLine_marker_snd fp fs line hsf' hm
      have hfst : (processLine fp fs line).2.1 =
          (handleFailureLine
            { fp with
              State := { fp.State with SeenFailure := true },
              logWriter := { file := some (goJoin fp.cfgFuzzResultsPath
                (fp.target ++ "_failure.log")) } }
            (fsCreate fs (goJoin fp.cfgFuzzResultsPath
              (fp.target ++ "_failure.log"))) line).2.1 :=
        congrArg Prod.fst hsnd
      obtain ⟨hshape1, hshape2⟩ := handleFailureLine_shape
        { fp with
          State := { fp.State with SeenFailure := true },
          logWriter := { file := some (goJoin fp.cfgFuzzResultsPath
            (fp.target ++ "_failure.log")) } }
        (fsCreate fs (goJoin fp.cfgFuzzResultsPath
          (fp.target ++ "_failure.log"))) line
      refine ⟨?_, ?_, ?_, ?_⟩
      · intro h; exact absurd h hsf
      · intro hip
        rw [hfst]
        rcases hshape1 with h | ⟨hip2, ed, h⟩
        · rw [h]; exact ⟨hip, rfl⟩
        · simp only [hip] at hip2
          exact absurd hip2 (by simp)
      · intro hed
        rw [hfst] at hed ⊢
        rcases hshape1 with h | ⟨hip2, ed, h⟩
        · rw [h] at hed; exact absurd rfl hed
        · rw [h]; exact ⟨hip2, rfl⟩
      · intro h; exact absurd h hsf
    · have hm' : strContains line "--- FAIL:" = false := by simpa using hm
      have heq := processLine_nomarker fp fs line hsf' hm'
      rw [heq]
      refine ⟨fun h => h, fun hip => ⟨hip, rfl⟩,
        fun hed => absurd rfl hed, fun _ => ⟨rfl, fun q s hq =>
          ⟨"", by rw [hq, string_append_empty]⟩⟩⟩

/-- Witness for C3: a second marker line while already in failure mode
keeps SeenFailure and InputPrinted true, keeps ErrorData and the sink
handle, and only extends the already-recorded log contents; and a
capture step flips InputPrinted from false to true. -/
theorem C3_witness :
    (processLine fpSecondMarker fsSecondMarker
      "--- FAIL: FuzzFoo").2.1.State.SeenFailure = true ∧
    ((processLine fpSecondMarker fsSecondMarker
      "--- FAIL: FuzzFoo").2.1.State.InputPrinted = true ∧
     (processLine fpSecondMarker fsSecondMarker
      "--- FAIL: FuzzFoo").2.1.State.ErrorData =
        fpSecondMarker.State.ErrorData) ∧
    (processLine fpSecondMarker fsSecondMarker
      "--- FAIL: FuzzFoo").2.1.logWriter = fpSecondMarker.logWriter ∧
    (∃ t, fsRead (processLine fpSecondMarker fsSecondMarker
      "--- FAIL: FuzzFoo").2.2 "results/FuzzFoo_failure.log" =
        some ("old\n" ++ t)) ∧
    (fpCapture.State.InputPrinted = false ∧
     (processLine fpCapture fsCapture
       ("Failing input written to testdata/fuzz/FuzzFoo/" ++
         "abc123")).2.1.State.InputPrinted = true) :=
  ⟨(C3_processState_invariants fpSecondMarker fsSecondMarker _).1 rfl,
   (C3_processState_invariants fpSecondMarker fsSecondMarker _).2.1 rfl,
   ((C3_processState_invariants fpSecondMarker fsSecondMarker
     "--- FAIL: FuzzFoo").2.2.2 rfl).1,
   ((C3_processState_invariants fpSecondMarker fsSecondMarker
     "--- FAIL: FuzzFoo").2.2.2 rfl).2
     "results/FuzzFoo_failure.log" "old\n" rfl,
   (C3_processState_invariants fpCapture fsCapture _).2.2.1
     (by decide)⟩

/-- With an open sink, handleFailureLine appends exactly the line plus
a newline to the filesystem. -/
theorem handleFailureLine_fs_open (fp : FuzzProcessor) (fs : Fs)
    (line p : String) (hfile : fp.logWriter.file = some p) :
    (handleFailureLine fp fs line).2.2 = fsAppend fs p (line ++ "\n") := by
  have hw := writeLine_open fp fs line p hfile
  cases hip : fp.State.InputPrinted with
  | true => simp [handleFailureLine, hw, hip]
  | false =>
    rcases hpl : parseFailureLine line with ⟨t, i, e⟩
    cases e with
    | some e => simp [handleFailureLine, hw, hip, hpl]
    | none =>
      by_cases hti : t = "" ∨ i = ""
      · simp [handleFailureLine, hw, hip, hpl, hti]
      · push_neg at hti
        rw [handleFailureLine_capture fp fs line p t i hfile hip hpl
          hti.1 hti.2]

/-- C1 (amended): the marker line is itself the first line recorded:
on the line where the failure marker is first detected, the sink is
created fresh and that very line is appended to it, so recording
begins with the detection line rather than the one after it. -/
theorem C1_marker_line_recorded (fp : FuzzProcessor) (fs : Fs)
    (line : String) (h1 : fp.State.SeenFailure = false)
    (h2 : strContains line "--- FAIL:" = true) :
    fsRead (processLine fp fs line).2.2
      (goJoin fp.cfgFuzzResultsPath (fp.target ++ "_failure.log")) =
      some (line ++ "\n") := by
  have hfs := congrArg Prod.snd (processLine_marker_snd fp fs line h1 h2)
  simp only at hfs
  rw [hfs, handleFailureLine_fs_open _ _ _
    (goJoin fp.cfgFuzzResultsPath (fp.target ++ "_failure.log")) rfl]
  rw [fsRead_fsAppend]
  simp [fsCreate, fsRead_fsSet, string_empty_append]

/-- Witness for C1's amended theorem at Scenario A's marker line. -/
theorem C1_marker_line_recorded_witness :
    fpScenario.State.SeenFailure = false ∧
    strContains "--- FAIL: FuzzFoo" "--- FAIL:" = true ∧
    fsRead (processLine fpScenario fsScenario "--- FAIL: FuzzFoo").2.2
      (goJoin "results" ("FuzzFoo" ++ "_failure.log")) =
      some ("--- FAIL: FuzzFoo" ++ "\n") :=
  ⟨rfl, rfl,
    C1_marker_line_recorded fpScenario fsScenario "--- FAIL: FuzzFoo"
      rfl rfl⟩

/-- C1 counterexample: for Scenario A the recorded log does contain
the "--- FAIL: FuzzFoo" marker line — it is the first recorded line,
ahead of "panic: x" — refuting the claim that the detection line is
not itself written to the sink. -/
theorem C1_counterexample :
    fsRead (ProcessStream fpScenario fsScenario scenarioALines).2.1
      "results/FuzzFoo_failure.log" =
      some ("--- FAIL: FuzzFoo\npanic: x\nFailing input written to " ++
        "testdata/fuzz/FuzzFoo/abc123\nmore\n\n\n" ++
        "=== Failing testcase (FuzzFoo/abc123) ===\nSEED\n") ∧
    strContains ("--- FAIL: FuzzFoo\npanic: x\nFailing input written " ++
        "to testdata/fuzz/FuzzFoo/abc123\nmore\n\n\n" ++
        "=== Failing testcase (FuzzFoo/abc123) ===\nSEED\n")
      "--- FAIL: FuzzFoo" = true := by
  constructor
  · rfl
  · decide

/-- Closing an open sink appends the error data plus a newline. -/
theorem close_open (fl : FileLogWriter) (fs : Fs) (ed p : String)
    (hfile : fl.file = some p) :
    fl.Close fs ed = (Except.ok (), fsAppend fs p (ed ++ "\n")) := by
  simp [FileLogWriter.Close, FileLogWriter.WriteErrorData,
    fileWriteString, hfile]

/-- Closing a never-initialized sink fails on the nil handle and
leaves the filesystem untouched. -/
theorem close_none (fl : FileLogWriter) (fs : Fs) (ed : String)
    (hfile : fl.file = none) :
    fl.Close fs ed =
      (Except.error ("error data write failed: " ++
        ("Failed to write log file: " ++ "invalid argument")), fs) := by
  simp [FileLogWriter.Close, FileLogWriter.WriteErrorData,
    fileWriteString, hfile]

/-- Marker-free streams leave the processor, the filesystem, and the
error log untouched. -/
theorem processLines_nomarker (fp : FuzzProcessor) (fs : Fs)
    (lines : List String) (hsf : fp.State.SeenFailure = false)
    (hm : ∀ l ∈ lines, strContains l "--- FAIL:" = false) :
    processLines fp fs lines = (fp, fs, []) := by
  induction lines with
  | nil => rfl
  | cons l rest ih =>
    have h1 := processLine_nomarker fp fs l hsf (hm l (by simp))
    simp only [processLines, h1]
    exact ih (fun l2 hl => hm l2 (by simp [hl]))

/-- C5: when the stream is exhausted, the finalize step runs exactly
once, appending the final ErrorData (possibly empty) plus a newline to
the sink and closing it; and when no marker line ever appeared, no log
file is created, nothing changes, and no error is raised (the failed
close of the never-created sink is discarded). -/
theorem C5_finalize (fp : FuzzProcessor) (fs : Fs)
    (lines : List String) :
    (∀ p, (processLines fp fs lines).1.logWriter.file = some p →
      fsRead (ProcessStream fp fs lines).2.1 p =
        some ((fsRead (processLines fp fs lines).2.1 p).getD "" ++
          ((processLines fp fs lines).1.State.ErrorData ++ "\n"))) ∧
    ((fp.logWriter.file = none ∧ fp.State.SeenFailure = false ∧
      ∀ l ∈ lines, strContains l "--- FAIL:" = false) →
      ProcessStream fp fs lines = (fp, fs, [])) := by
  constructor
  · intro p hp
    simp only [ProcessStream]
    rw [close_open _ _ _ p hp]
    simp [fsRead_fsAppend]
  · rintro ⟨hfile, hsf, hm⟩
    have hr := processLines_nomarker fp fs lines hsf hm
    simp only [ProcessStream, hr]
    rw [close_none _ _ _ hfile]

/-- Witness for C5: Scenario A's finalize appends its ErrorData once;
a marker-free stream changes nothing at all. -/
theorem C5_finalize_witness :
    fsRead (ProcessStream fpScenario fsScenario scenarioALines).2.1
      "results/FuzzFoo_failure.log" =
      some ((fsRead (processLines fpScenario fsScenario
        scenarioALines).2.1 "results/FuzzFoo_failure.log").getD "" ++
        ((processLines fpScenario fsScenario
          scenarioALines).1.State.ErrorData ++ "\n")) ∧
    ProcessStream fpScenario fsScenario ["ok", "nothing", "here"] =
      (fpScenario, fsScenario, []) :=
  ⟨(C5_finalize fpScenario fsScenario scenarioALines).1
      "results/FuzzFoo_failure.log" rfl,
   (C5_finalize fpScenario fsScenario ["ok", "nothing", "here"]).2
      ⟨rfl, rfl, by decide⟩⟩

/-- C6: round-trip of a readable corpus file — on either of the two
recognized failure-line forms, the capture stores into ErrorData
exactly the documented header followed by the file's raw bytes. -/
theorem C6_roundtrip (fp : FuzzProcessor) (fs : Fs)
    (p target id B : String)
    (hfile : fp.logWriter.file = some p)
    (hip : fp.State.InputPrinted = false)
    (ht : ∀ c ∈ target.toList, ¬(c = '/'))
    (hts : ∀ c ∈ target.toList, isSpaceRE c = false)
    (htne : target ≠ "")
    (hid : ∀ c ∈ id.toList, isHexLower c = true) (hidne : id ≠ "")
    (hjoin : goJoin target id = target ++ "/" ++ id)
    (hcorp : fsRead fs (goJoin fp.corpusPath (target ++ "/" ++ id)) =
      some B)
    (hnlog : goJoin fp.corpusPath (target ++ "/" ++ id) ≠ p) :
    (handleFailureLine fp fs
      ("Failing input written to testdata/fuzz/" ++ target ++ "/" ++
        id)).2.1.State.ErrorData =
      "\n\n=== Failing testcase (" ++ (target ++ "/" ++ id) ++
        ") ===\n" ++ B ∧
    (handleFailureLine fp fs
      ("failure while testing seed corpus entry: " ++ target ++ "/" ++
        id)).2.1.State.ErrorData =
      "\n\n=== Failing testcase (" ++ (target ++ "/" ++ id) ++
        ") ===\n" ++ B := by
  constructor
  · have hpl := parseFailureLine_form2 target id ht htne hid hidne
    rw [handleFailureLine_capture fp fs _ p target id hfile hip hpl
      htne hidne]
    simp only [readInputData, hjoin]
    rw [fsRead_fsAppend]
    simp [hnlog, hcorp]
  · have hpl := parseFailureLine_form1 target id ht htne hts hid hidne
    rw [handleFailureLine_capture fp fs _ p target id hfile hip hpl
      htne hidne]
    simp only [readInputData, hjoin]
    rw [fsRead_fsAppend]
    simp [hnlog, hcorp]

/-- Witness for C6 at target FuzzFoo, id abc123, bytes "SEED". -/
theorem C6_roundtrip_witness :
    (handleFailureLine fpCapture fsCapture
      ("Failing input written to testdata/fuzz/" ++ "FuzzFoo" ++ "/" ++
        "abc123")).2.1.State.ErrorData =
      "\n\n=== Failing testcase (" ++ ("FuzzFoo" ++ "/" ++ "abc123") ++
        ") ===\n" ++ "SEED" ∧
    (handleFailureLine fpCapture fsCapture
      ("failure while testing seed corpus entry: " ++ "FuzzFoo" ++
        "/" ++ "abc123")).2.1.State.ErrorData =
      "\n\n=== Failing testcase (" ++ ("FuzzFoo" ++ "/" ++ "abc123") ++
        ") ===\n" ++ "SEED" :=
  C6_roundtrip fpCapture fsCapture "results/FuzzFoo_failure.log"
    "FuzzFoo" "abc123" "SEED" rfl rfl (by decide) (by decide)
    (by decide) (by decide) (by decide) rfl rfl (by decide)

/-- C7: a matching extraction line whose corpus file cannot be read
stores the bracketed placeholder with the path and the error text,
still sets InputPrinted, and the capture is never retried on any later
line. -/
theorem C7_read_failure (fp : FuzzProcessor) (fs : Fs)
    (line p target id : String)
    (hfile : fp.logWriter.file = some p)
    (hip : fp.State.InputPrinted = false)
    (hparse : parseFailureLine line = (target, id, none))
    (htne : target ≠ "") (hidne : id ≠ "")
    (hjoin : goJoin target id = target ++ "/" ++ id)
    (habs : fsRead fs (goJoin fp.corpusPath (target ++ "/" ++ id)) =
      none)
    (hnlog : goJoin fp.corpusPath (target ++ "/" ++ id) ≠ p) :
    (handleFailureLine fp fs line).2.1.State.ErrorData =
      "\n<< failed to read " ++ (target ++ "/" ++ id) ++ ": " ++
        readFileErrMsg (goJoin fp.corpusPath (target ++ "/" ++ id)) ++
        " >>\n" ∧
    (handleFailureLine fp fs line).2.1.State.InputPrinted = true ∧
    ∀ fs2 line2,
      (handleFailureLine (handleFailureLine fp fs line).2.1 fs2
        line2).2.1 = (handleFailureLine fp fs line).2.1 := by
  have hc := handleFailureLine_capture fp fs line p target id hfile hip
    hparse htne hidne
  refine ⟨?_, ?_, ?_⟩
  · rw [hc]
    simp only [readInputData, hjoin]
    rw [fsRead_fsAppend]
    simp [hnlog, habs]
  · rw [hc]
  · intro fs2 line2
    apply handleFailureLine_printed
    rw [hc]

/-- Witness for C7: the corpus file is absent, the placeholder is
stored, InputPrinted is set, and a later matching line changes
nothing. -/
theorem C7_read_failure_witness :
    (handleFailureLine fpCapture fsNoCorpus
      "Failing input written to testdata/fuzz/FuzzFoo/abc123"
      ).2.1.State.ErrorData =
      "\n<< failed to read " ++ ("FuzzFoo" ++ "/" ++ "abc123") ++
        ": " ++ readFileErrMsg (goJoin "corpus"
          ("FuzzFoo" ++ "/" ++ "abc123")) ++ " >>\n" ∧
    (handleFailureLine fpCapture fsNoCorpus
      "Failing input written to testdata/fuzz/FuzzFoo/abc123"
      ).2.1.State.InputPrinted = true ∧
    (handleFailureLine (handleFailureLine fpCapture fsNoCorpus
      "Failing input written to testdata/fuzz/FuzzFoo/abc123").2.1
      fsCapture
      "failure while testing seed corpus entry: FuzzFoo/abc123").2.1 =
      (handleFailureLine fpCapture fsNoCorpus
        "Failing input written to testdata/fuzz/FuzzFoo/abc123").2.1 :=
  ⟨(C7_read_failure fpCapture fsNoCorpus _ "results/FuzzFoo_failure.log"
      "FuzzFoo" "abc123" rfl rfl (by decide) (by decide) (by decide)
      rfl rfl (by decide)).1,
   (C7_read_failure fpCapture fsNoCorpus _ "results/FuzzFoo_failure.log"
      "FuzzFoo" "abc123" rfl rfl (by decide) (by decide) (by decide)
      rfl rfl (by decide)).2.1,
   (C7_read_failure fpCapture fsNoCorpus _ "results/FuzzFoo_failure.log"
      "FuzzFoo" "abc123" rfl rfl (by decide) (by decide) (by decide)
      rfl rfl (by decide)).2.2 fsCapture
      "failure while testing seed corpus entry: FuzzFoo/abc123"⟩

/-- C10: readInputData and parseFailureLine return a nil Go error on
every input, so the error-abort branches after parsing and after
capture in handleFailureLine are unreachable: any error it returns
comes from the log-write step alone, and neither a parse mismatch nor
a corpus read failure can halt processing. -/
theorem C10_no_abort (line : String) (fp : FuzzProcessor)
    (t i : String) (fs : Fs) (e : String) :
    (parseFailureLine line).2.2 = none ∧
    (readInputData fp t i fs).2 = none ∧
    ((handleFailureLine fp fs line).1 = Except.error e →
      strHasPrefix e "failed to write log line: " = true) := by
  have ha : ∀ l : String, (parseFailureLine l).2.2 = none := by
    intro l
    rcases h : scanMatch l.toList with _ | ⟨a, b⟩ <;>
      (unfold parseFailureLine; rw [h])
  refine ⟨ha line, ?_, ?_⟩
  · rw [readInputData_eq]
  · cases hfile : fp.logWriter.file with
    | none =>
      have hw : fp.logWriter.WriteLine fs line =
          (Except.error ("Failed to write log file: " ++
            "invalid argument"), fs) := by
        simp [FileLogWriter.WriteLine, fileWriteString, hfile]
      intro he
      simp only [handleFailureLine, hw, Except.error.injEq] at he
      rw [← he]
      decide
    | some p =>
      have hw := writeLine_open fp fs line p hfile
      intro he
      cases hip : fp.State.InputPrinted with
      | true => simp [handleFailureLine, hw, hip] at he
      | false =>
        rcases hpl : parseFailureLine line with ⟨t2, i2, e2⟩
        have he2 : e2 = none := by
          have := ha line
          rw [hpl] at this
          exact this
        subst he2
        by_cases hti : t2 = "" ∨ i2 = ""
        · simp [handleFailureLine, hw, hip, hpl, hti] at he
        · push_neg at hti
          rw [handleFailureLine_capture fp fs line p t2 i2 hfile hip hpl
            hti.1 hti.2] at he
          exact absurd he (by simp)

/-- Witness for C10: a processor whose sink was never opened makes the
log write fail, and that is the only error shape handleFailureLine
produces. -/
theorem C10_no_abort_witness :
    (parseFailureLine "hello").2.2 = none ∧
    (readInputData fpScenario "FuzzFoo" "abc123" fsScenario).2 = none ∧
    strHasPrefix ("failed to write log line: " ++
      ("Failed to write log file: " ++ "invalid argument"))
      "failed to write log line: " = true :=
  ⟨(C10_no_abort "hello" fpScenario "FuzzFoo" "abc123" fsScenario
      "x").1,
   (C10_no_abort "hello" fpScenario "FuzzFoo" "abc123" fsScenario
      "x").2.1,
   (C10_no_abort "hello" fpScenario "FuzzFoo" "abc123" fsScenario
      ("failed to write log line: " ++ ("Failed to write log file: " ++
        "invalid argument"))).2.2 (by rfl)⟩

/-- C8: a non-zero process exit is suppressed (nil error) exactly when
the governing context was already canceled at exit, and surfaced as a
fuzz execution failure otherwise. -/
theorem C8_cancellation_suppression (env : ExecEnv) (e : String)
    (h1 : env.cwdErr = none) (h2 : env.stdoutPipeErr = none)
    (h3 : env.stderrPipeErr = none) (h4 : env.startErr = none)
    (h5 : env.waitErr = some e) :
    (env.ctxErrAtWait ≠ none → executeFuzzTarget env = none) ∧
    (env.ctxErrAtWait = none →
      executeFuzzTarget env =
        some ("fuzz execution failed: " ++ e)) := by
  constructor <;> intro hc <;>
    simp [executeFuzzTarget, h1, h2, h3, h4, h5, hc]

/-- Witness for C8: a kill under cancellation returns nil; a genuine
crash surfaces the wrapped wait error. -/
theorem C8_cancellation_suppression_witness :
    executeFuzzTarget envCanceled = none ∧
    executeFuzzTarget envCrash =
      some ("fuzz execution failed: " ++ "exit status 1") :=
  ⟨(C8_cancellation_suppression envCanceled "signal: killed" rfl rfl
      rfl rfl rfl).1 (by decide),
   (C8_cancellation_suppression envCrash "exit status 1" rfl rfl rfl
      rfl rfl).2 rfl⟩

/-- The collection loop of listFuzzTargets equals trim-then-filter. -/
theorem collectTargets_eq (lines : List String) :
    collectTargets lines =
      (lines.map goTrimSpace).filter
        (fun s => strHasPrefix s "Fuzz") := by
  induction lines with
  | nil => rfl
  | cons l rest ih =>
    simp only [collectTargets, List.map_cons, List.filter_cons]
    by_cases h : strHasPrefix (goTrimSpace l) "Fuzz" <;> simp [h, ih]

/-- C9: on success, discovery returns exactly the trimmed stdout lines
beginning with "Fuzz", in encounter order, with the warning flag set
exactly when that list is empty (a warning, not an error); a failed
listing command yields the wrapped error. -/
theorem C9_target_discovery (pkg stderrOut stdoutStr err : String) :
    listFuzzTargets pkg (Except.ok stdoutStr) stderrOut =
      Except.ok
        (((strSplitOnChar stdoutStr '\n').map goTrimSpace).filter
          (fun s => strHasPrefix s "Fuzz"),
         (((strSplitOnChar stdoutStr '\n').map goTrimSpace).filter
           (fun s => strHasPrefix s "Fuzz")).isEmpty) ∧
    listFuzzTargets pkg (Except.error err) stderrOut =
      Except.error ("go test failed for \"" ++ pkg ++ "\": " ++ err ++
        " (output: \"" ++ goTrimSpace stderrOut ++ "\")") :=
  ⟨by simp [listFuzzTargets, collectTargets_eq], rfl⟩

/-- C2 (claim refuted by the code): the worker does NOT raise its
completion signal on every exit path.  When the cycle context is
already canceled at the worker's select, it returns without closing
doneChan and the scheduler's wait blocks forever; when cloning fails,
worker.Main calls os.Exit(1), which skips the deferred close.  Only
the normal-completion path closes the channel. -/
theorem C2_done_signal_bug :
    (runFuzzingWorker true none none).doneClosed = false ∧
    (schedulerCycleStep false true none none).outcome =
      CycleOutcome.blockedOnDone ∧
    (workerMain (some "clone failed") none).doneClosed = false ∧
    (schedulerCycleStep false false (some "clone failed") none).outcome
      = CycleOutcome.processExited 1 ∧
    (workerMain none none).doneClosed = true := by
  decide

/-- C4 counterexample: a repository-cloning error does not let the
Scheduler proceed to cleanup and the next cycle — the worker calls
os.Exit(1) and the whole process terminates, the scheduler's own
cleanup never runs. -/
theorem C4_counterexample :
    (schedulerCycleStep false false (some "repository clone failed")
      none).outcome ≠ CycleOutcome.nextCycle ∧
    (schedulerCycleStep false false (some "repository clone failed")
      none).schedulerCleanupRan = false := by
  decide

/-- C4 (amended): a worker-level error (cloning or fuzzing failure) is
logged and the worker performs workspace cleanup itself, then
terminates the entire process with exit status 1; the Scheduler does
not reach its post-cycle cleanup or another cycle. -/
theorem C4_worker_error_exits (rc : Bool)
    (cloneErr fuzzErr : Option String) (e : String) :
    (cloneErr = some e →
      (schedulerCycleStep rc false cloneErr fuzzErr).worker.loggedErrors
        = ["Repository cloning failed: " ++ e] ∧
      (schedulerCycleStep rc false cloneErr fuzzErr).worker.cleanupRan =
        true ∧
      (schedulerCycleStep rc false cloneErr fuzzErr).outcome =
        CycleOutcome.processExited 1 ∧
      (schedulerCycleStep rc false cloneErr
        fuzzErr).schedulerCleanupRan = false) ∧
    (cloneErr = none → fuzzErr = some e →
      (schedulerCycleStep rc false cloneErr fuzzErr).worker.loggedErrors
        = ["Fuzzing process failed: " ++ e] ∧
      (schedulerCycleStep rc false cloneErr fuzzErr).worker.cleanupRan =
        true ∧
      (schedulerCycleStep rc false cloneErr fuzzErr).outcome =
        CycleOutcome.processExited 1 ∧
      (schedulerCycleStep rc false cloneErr
        fuzzErr).schedulerCleanupRan = false) := by
  constructor
  · intro h
    subst h
    simp [schedulerCycleStep, runFuzzingWorker, workerMain]
  · intro h1 h2
    subst h1; subst h2
    simp [schedulerCycleStep, runFuzzingWorker, workerMain]

/-- Witness for C4's amended theorem on both error kinds. -/
theorem C4_worker_error_exits_witness :
    ((schedulerCycleStep false false (some "boom") none
      ).worker.loggedErrors = ["Repository cloning failed: " ++ "boom"]
      ∧ (schedulerCycleStep false false (some "boom") none
        ).worker.cleanupRan = true
      ∧ (schedulerCycleStep false false (some "boom") none).outcome =
        CycleOutcome.processExited 1
      ∧ (schedulerCycleStep false false (some "boom") none
        ).schedulerCleanupRan = false) ∧
    ((schedulerCycleStep false false none (some "boom")
      ).worker.loggedErrors = ["Fuzzing process failed: " ++ "boom"]
      ∧ (schedulerCycleStep false false none (some "boom")
        ).worker.cleanupRan = true
      ∧ (schedulerCycleStep false false none (some "boom")).outcome =
        CycleOutcome.processExited 1
      ∧ (schedulerCycleStep false false none (some "boom")
        ).schedulerCleanupRan = false) :=
  ⟨(C4_worker_error_exits false (some "boom") none "boom").1 rfl,
   (C4_worker_error_exits false none (some "boom") "boom").2 rfl rfl⟩

end LndFuzz
